import Mathlib

/-!
Verification of the register-model generator (`excel_to_uvm_ral.py`).

The script turns a tabular register specification into SystemVerilog UVM RAL
source text.  We embed the program shallowly:

* `parse_field` mirrors the Python `parse_field` function.  The regex
  `([A-Za-z_][A-Za-z0-9_]*)(?:\s*\[(\d+):(\d+)\])?` is modelled by an explicit
  character-list scanner: a maximal identifier prefix, then an optional
  whitespace + `[digits:digits]` group (matching is anchored at the start and
  only a prefix of the text has to match, exactly like `re.match`).
* A `Row` is one data row of the spreadsheet after the script's
  `fillna("").astype(str)` normalisation of the `register_name` and `fields`
  columns; the remaining cells are kept as `Option String` (`none` models a
  NaN cell, `some v` a cell whose Python string rendering is `v`).
* The generator's single pass over the rows is the fold `stepRow`; every
  `f.write(...)` call of the script appends the written string to the output
  list, so the generated artifact is the concatenation of the produced
  `List String`.
* The container block only depends on `df['register_name'].dropna().unique()`.
  After `fillna("")` no NaN is left, so `dropna()` is a no-op and `unique()`
  is the first-seen-order deduplication of the raw register-name cells,
  modelled by `uniqueNames`.
* The required-column check that runs before the output file is opened is
  modelled by `runWithHeader`: the `RunResult.error` constructor carries the
  missing column names (the script prints them and returns before creating
  the file), `RunResult.ok` carries the generated text.

Python truthiness is modelled explicitly: a string is truthy iff nonempty,
an `int` is truthy iff nonzero (so a *negative* size passes the
`if field_name and size and lsb is not None` test).
-/

namespace UvmRal

/-- Model of Python `str.strip()`: remove whitespace from both ends. -/
def strip (s : String) : String :=
  String.mk (((s.data.dropWhile Char.isWhitespace).reverse.dropWhile
    Char.isWhitespace).reverse)

/-- Model of Python `str.lower()` (ASCII). -/
def lowerStr (s : String) : String :=
  String.mk (s.data.map Char.toLower)

/-- First character class of the regex identifier: `[A-Za-z_]`. -/
def isIdentStart (c : Char) : Bool := c.isAlpha || c == '_'

/-- Continuation character class of the regex identifier: `[A-Za-z0-9_]`. -/
def isIdentChar (c : Char) : Bool := c.isAlphanum || c == '_'

/-- Decimal value of a digit string, as Python `int(...)` computes it. -/
def digitsToNat (ds : List Char) : Nat :=
  ds.foldl (fun n c => 10 * n + (c.toNat - '0'.toNat)) 0

/-- The optional regex group `(?:\s*\[(\d+):(\d+)\])?` tried directly after
the identifier.  Returns `(msb, lsb)` when the group matches; `none` means
the group matches empty and both captures are absent. -/
def parseRange (cs : List Char) : Option (Nat × Nat) :=
  match cs.dropWhile Char.isWhitespace with
  | '[' :: rest =>
    let ds1 := rest.takeWhile Char.isDigit
    if ds1 = [] then none else
    match rest.dropWhile Char.isDigit with
    | ':' :: rest2 =>
      let ds2 := rest2.takeWhile Char.isDigit
      if ds2 = [] then none else
      match rest2.dropWhile Char.isDigit with
      | ']' :: _ => some (digitsToNat ds1, digitsToNat ds2)
      | _ => none
    | _ => none
  | _ => none

/-- Embedding of the Python `parse_field`.  Returns
`(field_name, size, lsb, msb)` on a regex match and `none` for the
`(None, None, None, None)` result.  Faithfully keeps the script's
`size = msb - lsb + 1 if msb and lsb else 1` computation: the range
contributes only when *both* bounds are nonzero (Python int truthiness),
and a missing range yields `msb = lsb = 0`, `size = 1`. -/
def parse_field (s : String) : Option (String × Int × Nat × Nat) :=
  match s.data with
  | [] => none
  | c :: cs =>
    if isIdentStart c then
      let field_name : String := String.mk (c :: cs.takeWhile isIdentChar)
      match parseRange (cs.dropWhile isIdentChar) with
      | some (msb, lsb) =>
        some (field_name,
          if msb ≠ 0 ∧ lsb ≠ 0 then (msb : Int) - (lsb : Int) + 1 else 1,
          lsb, msb)
      | none => some (field_name, 1, 0, 0)
    else none

/-- One data row of the table, after `fillna("").astype(str)` on the
`register_name` and `fields` columns.  `none` models a NaN cell. -/
structure Row where
  register_name : String
  offset : Option String
  read_write : Option String
  fields : String
  default_value : Option String
  reset_value : Option String
  description : Option String

/-- Python f-string rendering of the `read_write` cell: `str(nan) = "nan"`. -/
def rwDisplay : Option String → String
  | some v => v
  | none => "nan"

/-- Rendering of `{default_value if pd.notna(default_value) else 0}`. -/
def dvDisplay : Option String → String
  | some v => v
  | none => "0"

/-- Field-declaration loop body (script lines 79-82): one `rand uvm_reg_field`
line per field whose parse passes `if field_name and size and lsb is not None`
(name nonempty, size nonzero; a successful parse always has `lsb ≠ None`). -/
def declFor (field : String) : List String :=
  match parse_field (strip field) with
  | some (field_name, size, _, _) =>
    if field_name ≠ "" ∧ size ≠ 0 then
      ["    rand uvm_reg_field " ++ field_name ++ ";\n"]
    else []
  | none => []

/-- Build-routine loop body (script lines 87-100): create + configure calls
for each accepted field, using the loop's current `read_write` and
`default_value` values. -/
def configureFor (read_write default_value : Option String) (field : String) :
    List String :=
  match parse_field (strip field) with
  | some (field_name, size, lsb, msb) =>
    if field_name ≠ "" ∧ size ≠ 0 then
      [ "    " ++ field_name ++ " = uvm_reg_field::type_id::create(\"" ++
          field_name ++ "\");\n",
        "    " ++ field_name ++ ".configure(.parent(this),\n",
        "                           .size(" ++ toString size ++ "),\n",
        "                           .lsb_pos(" ++ toString lsb ++ "),\n",
        "                           .msb_pos(" ++ toString msb ++ "),\n",
        "                           .access(\"" ++ rwDisplay read_write ++ "\"),\n",
        "                           .volatile(0),\n",
        "                           .reset(" ++ dvDisplay default_value ++ "),\n",
        "                           .has_reset(1),\n",
        "                           .is_rand(1),\n",
        "                           .individually_accessible(0));\n" ]
    else []
  | none => []

/-- End-of-table per-field emission (script lines 127-141): a single loop that
writes the declaration *and* the create/configure calls for each accepted
field, interleaved. -/
def endFieldFor (read_write default_value : Option String) (field : String) :
    List String :=
  match parse_field (strip field) with
  | some (field_name, size, lsb, msb) =>
    if field_name ≠ "" ∧ size ≠ 0 then
      [ "    rand uvm_reg_field " ++ field_name ++ ";\n",
        "    " ++ field_name ++ " = uvm_reg_field::type_id::create(\"" ++
          field_name ++ "\");\n",
        "    " ++ field_name ++ ".configure(.parent(this),\n",
        "                           .size(" ++ toString size ++ "),\n",
        "                           .lsb_pos(" ++ toString lsb ++ "),\n",
        "                           .msb_pos(" ++ toString msb ++ "),\n",
        "                           .access(\"" ++ rwDisplay read_write ++ "\"),\n",
        "                           .volatile(0),\n",
        "                           .reset(" ++ dvDisplay default_value ++ "),\n",
        "                           .has_reset(1),\n",
        "                           .is_rand(1),\n",
        "                           .individually_accessible(0));\n" ]
    else []
  | none => []

/-- Mid-stream finalization of the previously open register
(script lines 76-102): all declarations, then `function void build;`,
then all create/configure sequences, then the class closer. -/
def finalizeMid (fields : List String) (read_write default_value : Option String) :
    List String :=
  ["  //---------------------------------------\n"]
  ++ fields.flatMap declFor
  ++ ["  //---------------------------------------\n", "  function void build;\n"]
  ++ fields.flatMap (configureFor read_write default_value)
  ++ ["  endfunction\n", "endclass\n\n"]

/-- End-of-table finalization of the still-open register
(script lines 124-143): one comment line, the interleaved per-field output,
`endfunction`, class closer — with no `function void build;` opener. -/
def finalizeEnd (fields : List String) (read_write default_value : Option String) :
    List String :=
  ["  //---------------------------------------\n"]
  ++ fields.flatMap (endFieldFor read_write default_value)
  ++ ["  endfunction\n", "endclass\n\n"]

/-- Class header + constructor written when a register-start row is processed
(script lines 105-118). -/
def openReg (reg_name : String) : List String :=
  [ "class " ++ reg_name ++ " extends uvm_reg;\n",
    "  `uvm_object_utils(" ++ reg_name ++ ")\n\n",
    "  //---------------------------------------\n",
    "  // Constructor\n",
    "  //---------------------------------------\n",
    "  function new(string name = \"" ++ reg_name ++ "\");\n",
    "    super.new(name, 32, UVM_NO_COVERAGE);\n",
    "  endfunction\n\n" ]

/-- The loop state of the register-emission pass: the open register (if any),
its accumulated stripped field cells, the *current* row's `read_write` and
`default_value` loop variables, and the text written so far. -/
structure GenState where
  current_reg : Option String
  fields : List String
  rw : Option String
  dv : Option String
  out : List String

/-- One iteration of `for _, row in df.iterrows()` (script lines 64-121).
A row whose stripped `register_name` is nonempty finalizes the open register
(using *this* row's `read_write`/`default_value`) and opens a new one,
resetting the field list; afterwards a truthy `fields` cell is stripped and
appended to the open field list. -/
def stepRow (st : GenState) (row : Row) : GenState :=
  let reg_name := strip row.register_name
  let st1 : GenState :=
    if reg_name ≠ "" then
      { current_reg := some reg_name
        fields := []
        rw := row.read_write
        dv := row.default_value
        out := st.out
          ++ (if st.current_reg.isSome then
                finalizeMid st.fields row.read_write row.default_value
              else [])
          ++ openReg reg_name }
    else
      { st with rw := row.read_write, dv := row.default_value }
  if row.fields ≠ "" then { st1 with fields := st1.fields ++ [strip row.fields] }
  else st1

/-- After the loop: `if current_reg:` emit the last register through the
end-of-table path, with the loop variables holding the *last* row's values
(script lines 124-143). -/
def finishRun (st : GenState) : List String :=
  st.out ++ (if st.current_reg.isSome then finalizeEnd st.fields st.rw st.dv else [])

/-- The register-class part of the artifact: fold the rows, then flush. -/
def registerSection (rows : List Row) : List String :=
  finishRun (rows.foldl stepRow ⟨none, [], none, none, []⟩)

/-- Model of `df['register_name'].dropna().unique()`: after `fillna("")` the column has
no NaN left, so this is first-seen-order deduplication of the **raw**
register-name cells (empty strings included, nothing stripped). -/
def uniqueStep (acc : List String) (r : Row) : List String :=
  if r.register_name ∈ acc then acc else acc ++ [r.register_name]

def uniqueNames (rows : List Row) : List String :=
  rows.foldl uniqueStep []

/-- The container (register block) emitter, script lines 146-183, as a
function of the deduplicated name list. -/
def containerOf (names : List String) : List String :=
  [ "//-------------------------------------------------------------------------\n",
    "//\tRegister Block Definition\n",
    "//-------------------------------------------------------------------------\n",
    "class dma_reg_model extends uvm_reg_block;\n",
    "  `uvm_object_utils(dma_reg_model)\n\n",
    "  //---------------------------------------\n",
    "  // Register Instances\n",
    "  //---------------------------------------\n" ]
  ++ names.map (fun n => "  rand " ++ n ++ " reg_" ++ lowerStr n ++ ";\n")
  ++ [ "\n  //---------------------------------------\n",
       "  // Constructor\n",
       "  //---------------------------------------\n",
       "  function new (string name = \"\");\n",
       "    super.new(name, build_coverage(UVM_NO_COVERAGE));\n",
       "  endfunction\n\n",
       "  //---------------------------------------\n",
       "  // Build Phase\n",
       "  //---------------------------------------\n",
       "  function void build();\n" ]
  ++ names.flatMap (fun n =>
       [ "    reg_" ++ lowerStr n ++ " = " ++ n ++ "::type_id::create(\"reg_" ++
           lowerStr n ++ "\");\n",
         "    reg_" ++ lowerStr n ++ ".build();\n",
         "    reg_" ++ lowerStr n ++ ".configure(this);\n" ])
  ++ [ "    //---------------------------------------\n",
       "    // Memory Map Creation and Register Map\n",
       "    //---------------------------------------\n",
       "    default_map = create_map(\"my_map\", 0, 4, UVM_LITTLE_ENDIAN);\n" ]
  ++ names.map (fun n =>
       "    default_map.add_reg(reg_" ++ lowerStr n ++ ", \x27h0, \"RW\");\n")
  ++ [ "    lock_model();\n",
       "  endfunction\n",
       "endclass\n\n" ]

/-- The container block of a run (script lines 146-183). -/
def containerSection (rows : List Row) : List String :=
  containerOf (uniqueNames rows)

/-- The one-time include-guard opener (lines 58-59; the closing directive on
line 185 is commented out in the script and hence not emitted). -/
def fileHeader : List String :=
  ["`ifndef REG_MODEL\n", "`define REG_MODEL\n\n"]

/-- The full generated artifact for a table whose required columns are
present: header, register classes, container. -/
def excel_to_uvm_ral (rows : List Row) : List String :=
  fileHeader ++ registerSection rows ++ containerSection rows

/-- The `required_columns` list of the script (line 33). -/
def required_columns : List String :=
  ["Register Name", "Offset", "Read/Write", "Fields", "Default value",
   "Reset value", "Description"]

/-- Result of a run: the script prints the missing columns and returns before
the output file is created (`RunResult.error`), or writes the artifact
(`RunResult.ok`). -/
inductive RunResult where
  | error (missing_columns : List String)
  | ok (output : List String)
deriving DecidableEq

/-- The run including the header check (script lines 29-37): the header cells
are stripped, every required column must appear verbatim; otherwise the run
reports the missing columns and terminates before any output exists. -/
def runWithHeader (header : List String) (rows : List Row) : RunResult :=
  let cols := header.map strip
  let missing := required_columns.filter (fun c => decide (c ∉ cols))
  if missing = [] then RunResult.ok (excel_to_uvm_ral rows)
  else RunResult.error missing

/-! ### Observation functions on the emitted text

These read the generated lines back, they are *not* part of the embedding of
the script: `declNameOf` recognises a field-handle declaration line
(`    rand uvm_reg_field X;`), `createNameOf` recognises a field creation
line (`    X = uvm_reg_field::type_id::create("X");` — inside a register
class the only lines of the shape `    identifier = ...`, i.e. four spaces,
an identifier, then " =", are the create calls, and declaration lines are the
only paren-free lines starting with four spaces). -/

/-- Four blanks, the indentation of declaration/assignment lines. -/
def spaces4 : List Char := [' ', ' ', ' ', ' ']

/-- The fixed text of a declaration line after its indentation. -/
def declMarker : List Char := ("rand uvm_reg_field ").data

/-- Extract `X` from a field-declaration line `    rand uvm_reg_field X;`. -/
def declNameOf (l : String) : Option String :=
  if l.data.take 4 = spaces4 ∧ '(' ∉ l.data ∧ (l.data.drop 4).take 19 = declMarker
  then some (String.mk (((l.data.drop 4).drop 19).takeWhile isIdentChar))
  else none

/-- Extract `X` from a field-creation line `    X = ...`. -/
def createNameOf (l : String) : Option String :=
  let rest := l.data.drop 4
  let n := rest.takeWhile isIdentChar
  if l.data.take 4 = spaces4 ∧ n ≠ [] ∧ (rest.drop n.length).take 2 = [' ', '=']
  then some (String.mk n)
  else none

/-- All field names declared in a block of emitted lines, in order. -/
def declaredNames (lines : List String) : List String :=
  lines.filterMap declNameOf

/-- All field names created/configured in a block of emitted lines, in order. -/
def createdNames (lines : List String) : List String :=
  lines.filterMap createNameOf

/-- The name a field cell contributes if it passes the script's acceptance
test (parse succeeds, name truthy, size truthy). -/
def acceptOf (field : String) : List String :=
  match parse_field (strip field) with
  | some (field_name, size, _, _) =>
    if field_name ≠ "" ∧ size ≠ 0 then [field_name] else []
  | none => []

/-! ### Concrete tables used by the witnesses -/

/-- Register-start row named `A` carrying a field cell. -/
def c6r1 : Row := ⟨"A", some "0x0", some "RW", "F1 [3:0]", some "1", none, none⟩

/-- Field-only continuation row (empty register-name cell). -/
def c6r2 : Row := ⟨"", none, none, "F2 [7:4]", none, none, none⟩

/-- Register-start row named `B` with no field cell. -/
def c6r3 : Row := ⟨"B", some "0x4", some "RO", "", some "2", none, none⟩

/-- Second register-start row named `A` (duplicate name). -/
def c6r4 : Row := ⟨"A", some "0x8", some "RW", "G [2:1]", none, none, none⟩

/-- Rows before the first register start, paired with an alternative
`fields` cell for the second table of the C8 hyperproperty. -/
def c8pre : List (Row × String) :=
  [ (⟨"", none, some "RW", "STRAY [3:0]", some "7", none, none⟩, "other junk"),
    (⟨"  ", none, none, "another note", none, none, none⟩, "") ]

/-- The remainder of the C8 tables, shared by both. -/
def c8rest : List Row :=
  [ ⟨"A", some "0x0", some "RW", "F [3:1]", some "1", none, none⟩,
    ⟨"", none, none, "G [7:5]", none, none, none⟩ ]

/-! ### Generic helpers about the emitted character data -/

theorem data_append (a b : String) : (a ++ b).data = a.data ++ b.data := rfl

theorem take4_append (a b : String) (h : a.data.take 4 = spaces4) :
    (a ++ b).data.take 4 = spaces4 := by
  have hlen : 4 ≤ a.data.length := by
    have hl := congrArg List.length h
    simp only [List.length_take, spaces4, List.length_cons, List.length_nil] at hl
    exact min_eq_left_iff.mp hl
  rw [data_append, List.take_append_of_le_length hlen, h]

theorem takeWhile_append_all {p : Char → Bool} (l1 l2 : List Char)
    (h : ∀ c ∈ l1, p c = true) :
    (l1 ++ l2).takeWhile p = l1 ++ l2.takeWhile p := by
  induction l1 with
  | nil => simp
  | cons a t ih =>
    have ha := h a (by simp)
    simp [List.takeWhile_cons, ha, ih fun c hc => h c (by simp [hc])]

theorem takeWhile_append_stop {p : Char → Bool} (l1 l2 : List Char)
    (h : l1.dropWhile p ≠ []) :
    (l1 ++ l2).takeWhile p = l1.takeWhile p := by
  induction l1 with
  | nil => simp at h
  | cons a t ih =>
    by_cases ha : p a
    · simp only [List.dropWhile_cons, ha, if_true] at h
      simp [List.takeWhile_cons, ha, ih h]
    · simp [List.takeWhile_cons, ha]

/-! ### Facts about `parse_field` -/

theorem identStart_identChar {c : Char} (h : isIdentStart c = true) :
    isIdentChar c = true := by
  simp only [isIdentStart, Bool.or_eq_true, beq_iff_eq] at h
  rcases h with h | h
  · simp [isIdentChar, Char.isAlphanum, h]
  · simp [isIdentChar, h]

/-- A successful parse yields a nonempty name made of identifier characters. -/
theorem parse_field_name {s n : String} {sz : Int} {lsb msb : Nat}
    (h : parse_field s = some (n, sz, lsb, msb)) :
    n ≠ "" ∧ ∀ c ∈ n.data, isIdentChar c = true := by
  unfold parse_field at h
  rcases hs : s.data with _ | ⟨c, cs⟩ <;> rw [hs] at h
  · simp at h
  · by_cases hc : isIdentStart c
    · simp only [hc, if_true] at h
      have hn : n = String.mk (c :: cs.takeWhile isIdentChar) := by
        rcases hr : parseRange (cs.dropWhile isIdentChar) with _ | ⟨m2, l2⟩ <;>
          rw [hr] at h <;> simp at h <;> exact h.1.symm
      constructor
      · intro he
        rw [hn] at he
        have := congrArg String.data he
        simp at this
      · intro d hd
        rw [hn] at hd
        rcases (by simpa using hd : d = c ∨ d ∈ cs.takeWhile isIdentChar) with h1 | h1
        · exact h1 ▸ identStart_identChar hc
        · exact List.mem_takeWhile_imp h1
    · simp [hc] at h

/-- Any text whose first character is not an identifier-start character
(this includes the empty string) fails to parse. -/
theorem parse_field_none_of_head {s : String}
    (h : ∀ c, s.data.head? = some c → isIdentStart c = false) :
    parse_field s = none := by
  unfold parse_field
  rcases hs : s.data with _ | ⟨c, cs⟩
  · rfl
  · have hc := h c (by rw [hs]; rfl)
    simp [hc]

/-! ### How the observation functions read the emitted line shapes -/

theorem declNameOf_some (l n : String) (td : List Char)
    (hld : l.data = spaces4 ++ (declMarker ++ (n.data ++ td)))
    (hident : ∀ c ∈ n.data, isIdentChar c = true)
    (hpar : '(' ∉ td)
    (htw : td.takeWhile isIdentChar = []) :
    declNameOf l = some n := by
  have h4 : l.data.take 4 = spaces4 := by
    rw [hld]
    exact List.take_left' (by decide)
  have hnotpar : ('(' : Char) ∉ l.data := by
    rw [hld]
    simp only [List.mem_append, not_or]
    exact ⟨by decide, by decide, fun hc => absurd (hident _ hc) (by decide), hpar⟩
  have hdrop : l.data.drop 4 = declMarker ++ (n.data ++ td) := by
    rw [hld]
    exact List.drop_left' (by decide)
  have h19 : (declMarker ++ (n.data ++ td)).take 19 = declMarker :=
    List.take_left' (by decide)
  have h19d : (declMarker ++ (n.data ++ td)).drop 19 = n.data ++ td :=
    List.drop_left' (by decide)
  have htwn : (n.data ++ td).takeWhile isIdentChar = n.data := by
    rw [takeWhile_append_all _ _ hident, htw, List.append_nil]
  unfold declNameOf
  rw [if_pos ⟨h4, hnotpar, by rw [hdrop, h19]⟩, hdrop, h19d, htwn]

theorem declNameOf_of_paren (l : String) (h : '(' ∈ l.data) : declNameOf l = none := by
  unfold declNameOf
  rw [if_neg]
  intro hcond
  exact hcond.2.1 h

theorem paren_mem_append_left (a b : String) (h : '(' ∈ a.data) :
    '(' ∈ (a ++ b).data := by
  rw [data_append]
  exact List.mem_append_left _ h

theorem paren_mem_append_right (a b : String) (h : '(' ∈ b.data) :
    '(' ∈ (a ++ b).data := by
  rw [data_append]
  exact List.mem_append_right _ h

theorem createNameOf_some (l n : String) (td : List Char)
    (hld : l.data = spaces4 ++ (n.data ++ td))
    (hn : n.data ≠ [])
    (hident : ∀ c ∈ n.data, isIdentChar c = true)
    (htd : td.take 2 = [' ', '=']) :
    createNameOf l = some n := by
  obtain ⟨t, ht⟩ : ∃ t, td = ' ' :: '=' :: t := by
    rcases htl : td with _ | ⟨a, _ | ⟨b, t⟩⟩ <;> rw [htl] at htd <;>
      simp [List.take] at htd
    exact ⟨t, by rw [htd.1, htd.2]⟩
  have h4 : l.data.take 4 = spaces4 := by
    rw [hld]
    exact List.take_left' (by decide)
  have hrest : l.data.drop 4 = n.data ++ td := by
    rw [hld]
    exact List.drop_left' (by decide)
  have htwn : (n.data ++ td).takeWhile isIdentChar = n.data := by
    rw [takeWhile_append_all _ _ hident, ht]
    simp [List.takeWhile_cons, (by decide : isIdentChar ' ' = false)]
  have hdropn : (n.data ++ td).drop n.data.length = td :=
    List.drop_left n.data td
  simp only [createNameOf]
  rw [hrest, htwn]
  rw [if_pos ⟨h4, hn, by rw [hdropn, htd]⟩]

theorem createNameOf_none_after_ident (l n : String) (td : List Char)
    (hld : l.data = spaces4 ++ (n.data ++ td))
    (hident : ∀ c ∈ n.data, isIdentChar c = true)
    (htw : td.takeWhile isIdentChar = [])
    (htd : td.take 2 ≠ [' ', '=']) :
    createNameOf l = none := by
  have hrest : l.data.drop 4 = n.data ++ td := by
    rw [hld]
    exact List.drop_left' (by decide)
  have htwn : (n.data ++ td).takeWhile isIdentChar = n.data := by
    rw [takeWhile_append_all _ _ hident, htw, List.append_nil]
  have hdropn : (n.data ++ td).drop n.data.length = td :=
    List.drop_left n.data td
  simp only [createNameOf]
  rw [hrest, htwn]
  rw [if_neg]
  intro hcond
  exact htd (hdropn ▸ hcond.2.2)

theorem createNameOf_none_space5 (l : String)
    (h5 : l.data.take 5 = [' ', ' ', ' ', ' ', ' ']) :
    createNameOf l = none := by
  obtain ⟨t, ht⟩ : ∃ t, l.data = ' ' :: ' ' :: ' ' :: ' ' :: ' ' :: t := by
    rcases ha : l.data with _ | ⟨c1, _ | ⟨c2, _ | ⟨c3, _ | ⟨c4, _ | ⟨c5, t⟩⟩⟩⟩⟩ <;>
      rw [ha] at h5 <;> simp [List.take] at h5
    exact ⟨t, by rw [h5.1, h5.2.1, h5.2.2.1, h5.2.2.2.1, h5.2.2.2.2]⟩
  simp only [createNameOf, ht]
  simp [List.takeWhile_cons, (by decide : isIdentChar ' ' = false)]

theorem createNameOf_none_declLine (l n : String) (td : List Char)
    (hld : l.data = spaces4 ++ (declMarker ++ (n.data ++ td))) :
    createNameOf l = none := by
  have hdrop : l.data.drop 4 = declMarker ++ (n.data ++ td) := by
    rw [hld]
    exact List.drop_left' (by decide)
  have htw : (declMarker ++ (n.data ++ td)).takeWhile isIdentChar
      = ['r', 'a', 'n', 'd'] := by
    rw [takeWhile_append_stop _ _ (by decide)]
    decide
  have hdrop4 : ((declMarker ++ (n.data ++ td)).drop 4).take 2 = [' ', 'u'] := by
    rw [List.drop_append_eq_append_drop,
      (by decide : 4 - declMarker.length = 0), List.drop_zero,
      List.take_append_of_le_length (by decide)]
    decide
  simp only [createNameOf]
  rw [hdrop, htw]
  rw [if_neg]
  intro hcond
  have h2 := hcond.2.2
  rw [(by decide : (['r', 'a', 'n', 'd'] : List Char).length = 4), hdrop4] at h2
  exact absurd h2 (by decide)

/-! ### The acceptance test as seen by the two extraction passes -/

theorem filterMap_declNameOf_declFor (f : String) :
    (declFor f).filterMap declNameOf = acceptOf f := by
  unfold declFor acceptOf
  rcases hp : parse_field (strip f) with _ | ⟨n, sz, lsb, msb⟩
  · rfl
  · obtain ⟨-, hident⟩ := parse_field_name hp
    dsimp only
    by_cases hg : n ≠ "" ∧ sz ≠ 0
    · rw [if_pos hg, if_pos hg]
      have e1 : declNameOf ("    rand uvm_reg_field " ++ n ++ ";\n") = some n :=
        declNameOf_some ("    rand uvm_reg_field " ++ n ++ ";\n") n ((";\n").data)
          (by simp [data_append, spaces4, declMarker])
          hident (by decide) (by decide)
      simp [List.filterMap_cons, e1]
    · rw [if_neg hg, if_neg hg]
      rfl

theorem filterMap_createNameOf_declFor (f : String) :
    (declFor f).filterMap createNameOf = [] := by
  unfold declFor
  rcases hp : parse_field (strip f) with _ | ⟨n, sz, lsb, msb⟩
  · rfl
  · dsimp only
    by_cases hg : n ≠ "" ∧ sz ≠ 0
    · rw [if_pos hg]
      have e1 : createNameOf ("    rand uvm_reg_field " ++ n ++ ";\n") = none :=
        createNameOf_none_declLine ("    rand uvm_reg_field " ++ n ++ ";\n") n
          ((";\n").data)
          (by simp [data_append, spaces4, declMarker])
      simp [List.filterMap_cons, e1]
    · rw [if_neg hg]
      rfl

theorem filterMap_declNameOf_configureFor (rw dv : Option String) (f : String) :
    (configureFor rw dv f).filterMap declNameOf = [] := by
  unfold configureFor
  rcases hp : parse_field (strip f) with _ | ⟨n, sz, lsb, msb⟩
  · rfl
  · dsimp only
    by_cases hg : n ≠ "" ∧ sz ≠ 0
    · rw [if_pos hg]
      have e1 : declNameOf ("    " ++ n ++ " = uvm_reg_field::type_id::create(\"" ++
          n ++ "\");\n") = none :=
        declNameOf_of_paren _ (paren_mem_append_left _ _ (paren_mem_append_left _ _
          (paren_mem_append_right _ _ (by decide))))
      have e2 : declNameOf ("    " ++ n ++ ".configure(.parent(this),\n") = none :=
        declNameOf_of_paren _ (paren_mem_append_right _ _ (by decide))
      have e3 : declNameOf ("                           .size(" ++ toString sz ++
          "),\n") = none :=
        declNameOf_of_paren _
          (paren_mem_append_left _ _ (paren_mem_append_left _ _ (by decide)))
      have e4 : declNameOf ("                           .lsb_pos(" ++ toString lsb ++
          "),\n") = none :=
        declNameOf_of_paren _
          (paren_mem_append_left _ _ (paren_mem_append_left _ _ (by decide)))
      have e5 : declNameOf ("                           .msb_pos(" ++ toString msb ++
          "),\n") = none :=
        declNameOf_of_paren _
          (paren_mem_append_left _ _ (paren_mem_append_left _ _ (by decide)))
      have e6 : declNameOf ("                           .access(\"" ++ rwDisplay rw ++
          "\"),\n") = none :=
        declNameOf_of_paren _
          (paren_mem_append_left _ _ (paren_mem_append_left _ _ (by decide)))
      have e7 : declNameOf ("                           .reset(" ++ dvDisplay dv ++
          "),\n") = none :=
        declNameOf_of_paren _
          (paren_mem_append_left _ _ (paren_mem_append_left _ _ (by decide)))
      simp [List.filterMap_cons, e1, e2, e3, e4, e5, e6, e7,
        (by decide : declNameOf "                           .volatile(0),\n" = none),
        (by decide : declNameOf "                           .has_reset(1),\n" = none),
        (by decide : declNameOf "                           .is_rand(1),\n" = none),
        (by decide : declNameOf
          "                           .individually_accessible(0));\n" = none)]
    · rw [if_neg hg]
      rfl

theorem filterMap_createNameOf_configureFor (rw dv : Option String) (f : String) :
    (configureFor rw dv f).filterMap createNameOf = acceptOf f := by
  unfold configureFor acceptOf
  rcases hp : parse_field (strip f) with _ | ⟨n, sz, lsb, msb⟩
  · rfl
  · obtain ⟨hne, hident⟩ := parse_field_name hp
    have hn : n.data ≠ [] := fun hd =>
      hne (show n = "" from congrArg String.mk hd)
    dsimp only
    by_cases hg : n ≠ "" ∧ sz ≠ 0
    · rw [if_pos hg, if_pos hg]
      have e1 : createNameOf ("    " ++ n ++ " = uvm_reg_field::type_id::create(\"" ++
          n ++ "\");\n") = some n :=
        createNameOf_some _ n
          ((" = uvm_reg_field::type_id::create(\"").data ++
            (n.data ++ ("\");\n").data))
          (by simp [data_append, spaces4])
          hn hident
          (by rw [List.take_append_of_le_length (by decide)]; decide)
      have e2 : createNameOf ("    " ++ n ++ ".configure(.parent(this),\n") = none :=
        createNameOf_none_after_ident _ n ((".configure(.parent(this),\n").data)
          (by simp [data_append, spaces4])
          hident (by decide) (by decide)
      have e3 : createNameOf ("                           .size(" ++ toString sz ++
          "),\n") = none :=
        createNameOf_none_space5 _
          (by rw [data_append, data_append, List.append_assoc,
                List.take_append_of_le_length (by decide)]
              decide)
      have e4 : createNameOf ("                           .lsb_pos(" ++ toString lsb ++
          "),\n") = none :=
        createNameOf_none_space5 _
          (by rw [data_append, data_append, List.append_assoc,
                List.take_append_of_le_length (by decide)]
              decide)
      have e5 : createNameOf ("                           .msb_pos(" ++ toString msb ++
          "),\n") = none :=
        createNameOf_none_space5 _
          (by rw [data_append, data_append, List.append_assoc,
                List.take_append_of_le_length (by decide)]
              decide)
      have e6 : createNameOf ("                           .access(\"" ++ rwDisplay rw ++
          "\"),\n") = none :=
        createNameOf_none_space5 _
          (by rw [data_append, data_append, List.append_assoc,
                List.take_append_of_le_length (by decide)]
              decide)
      have e7 : createNameOf ("                           .reset(" ++ dvDisplay dv ++
          "),\n") = none :=
        createNameOf_none_space5 _
          (by rw [data_append, data_append, List.append_assoc,
                List.take_append_of_le_length (by decide)]
              decide)
      simp [List.filterMap_cons, e1, e2, e3, e4, e5, e6, e7,
        (by decide : createNameOf "                           .volatile(0),\n" = none),
        (by decide : createNameOf "                           .has_reset(1),\n" = none),
        (by decide : createNameOf "                           .is_rand(1),\n" = none),
        (by decide : createNameOf
          "                           .individually_accessible(0));\n" = none)]
    · rw [if_neg hg, if_neg hg]
      rfl


/-- The end-of-table per-field output is the declaration followed by the
create/configure block, under one and the same acceptance test. -/
theorem endFieldFor_eq (rw dv : Option String) (f : String) :
    endFieldFor rw dv f = declFor f ++ configureFor rw dv f := by
  unfold endFieldFor declFor configureFor
  rcases parse_field (strip f) with _ | ⟨n, sz, lsb, msb⟩
  · rfl
  · dsimp only
    by_cases hg : n ≠ "" ∧ sz ≠ 0
    · rw [if_pos hg, if_pos hg, if_pos hg]
      rfl
    · rw [if_neg hg, if_neg hg, if_neg hg]
      rfl

theorem filterMap_flatMap (l : List String) (g : String → List String)
    (h : String → Option String) :
    (l.flatMap g).filterMap h = l.flatMap fun x => (g x).filterMap h := by
  induction l with
  | nil => rfl
  | cons a t ih => simp [List.flatMap_cons, List.filterMap_append, ih]

theorem flatMap_declFor_declNames (fields : List String) :
    (fields.flatMap declFor).filterMap declNameOf = fields.flatMap acceptOf := by
  induction fields with
  | nil => rfl
  | cons a t ih =>
    simp [List.flatMap_cons, List.filterMap_append, filterMap_declNameOf_declFor, ih]

theorem flatMap_declFor_createNames (fields : List String) :
    (fields.flatMap declFor).filterMap createNameOf = [] := by
  induction fields with
  | nil => rfl
  | cons a t ih =>
    simp [List.flatMap_cons, List.filterMap_append, filterMap_createNameOf_declFor, ih]

theorem flatMap_configureFor_declNames (fields : List String) (rw dv : Option String) :
    (fields.flatMap (configureFor rw dv)).filterMap declNameOf = [] := by
  induction fields with
  | nil => rfl
  | cons a t ih =>
    simp [List.flatMap_cons, List.filterMap_append,
      filterMap_declNameOf_configureFor, ih]

theorem flatMap_configureFor_createNames (fields : List String) (rw dv : Option String) :
    (fields.flatMap (configureFor rw dv)).filterMap createNameOf
      = fields.flatMap acceptOf := by
  induction fields with
  | nil => rfl
  | cons a t ih =>
    simp [List.flatMap_cons, List.filterMap_append,
      filterMap_createNameOf_configureFor, ih]

theorem flatMap_endFieldFor_declNames (fields : List String) (rw dv : Option String) :
    (fields.flatMap (endFieldFor rw dv)).filterMap declNameOf
      = fields.flatMap acceptOf := by
  induction fields with
  | nil => rfl
  | cons a t ih =>
    simp [List.flatMap_cons, List.filterMap_append, endFieldFor_eq,
      filterMap_declNameOf_declFor, filterMap_declNameOf_configureFor, ih]

theorem flatMap_endFieldFor_createNames (fields : List String) (rw dv : Option String) :
    (fields.flatMap (endFieldFor rw dv)).filterMap createNameOf
      = fields.flatMap acceptOf := by
  induction fields with
  | nil => rfl
  | cons a t ih =>
    simp [List.flatMap_cons, List.filterMap_append, endFieldFor_eq,
      filterMap_createNameOf_declFor, filterMap_createNameOf_configureFor, ih]

/-! ### Claim theorems -/

/-- Claim C10: in both finalization paths, the list of field names that
receive a `rand uvm_reg_field` declaration equals — element for element and
in the same order — the list of field names that receive a
create/configure sequence: both passes apply the same acceptance test. -/
theorem c10_declared_and_configured_fields_correspond
    (fields : List String) (rw dv : Option String) :
    declaredNames (finalizeMid fields rw dv) = createdNames (finalizeMid fields rw dv) ∧
    declaredNames (finalizeEnd fields rw dv) = createdNames (finalizeEnd fields rw dv) := by
  constructor
  · unfold declaredNames createdNames finalizeMid
    simp [List.filterMap_append, List.filterMap_cons,
      flatMap_declFor_declNames, flatMap_declFor_createNames,
      flatMap_configureFor_declNames, flatMap_configureFor_createNames,
      (by decide : declNameOf "  //---------------------------------------\n" = none),
      (by decide : declNameOf "  function void build;\n" = none),
      (by decide : declNameOf "  endfunction\n" = none),
      (by decide : declNameOf "endclass\n\n" = none),
      (by decide : createNameOf "  //---------------------------------------\n" = none),
      (by decide : createNameOf "  function void build;\n" = none),
      (by decide : createNameOf "  endfunction\n" = none),
      (by decide : createNameOf "endclass\n\n" = none)]
  · unfold declaredNames createdNames finalizeEnd
    simp [List.filterMap_append, List.filterMap_cons,
      flatMap_endFieldFor_declNames, flatMap_endFieldFor_createNames,
      (by decide : declNameOf "  //---------------------------------------\n" = none),
      (by decide : declNameOf "  endfunction\n" = none),
      (by decide : declNameOf "endclass\n\n" = none),
      (by decide : createNameOf "  //---------------------------------------\n" = none),
      (by decide : createNameOf "  endfunction\n" = none),
      (by decide : createNameOf "endclass\n\n" = none)]

/-- Claim C5 (amended): a field-text entry produces a declaration and a
create/configure sequence (in either finalization path) iff its parse
succeeds and its computed width is *nonzero* — zero-width fields are
skipped, but negative-width fields are accepted and emitted. -/
theorem c5_amended_emission_iff_nonzero_size (field : String)
    (rw dv : Option String) :
    (declFor field ≠ [] ∧ configureFor rw dv field ≠ [] ∧
      endFieldFor rw dv field ≠ []) ↔
    ∃ n sz lsb msb, parse_field (strip field) = some (n, sz, lsb, msb) ∧ sz ≠ 0 := by
  unfold declFor configureFor endFieldFor
  rcases hp : parse_field (strip field) with _ | ⟨n, sz, lsb, msb⟩
  · simp
  · obtain ⟨hne, -⟩ := parse_field_name hp
    dsimp only
    by_cases hsz : sz = 0
    · simp [hsz, hne]
    · simp [hne, hsz]
      exact ⟨n, sz, ⟨rfl, rfl⟩, hsz⟩

/-- Claim C9: a field text whose (stripped or raw) first character is not a
letter or underscore — including the empty string, a leading digit, or
leading punctuation — parses to the all-`None` result without error, and
inserting such an entry anywhere in a register's field list leaves both
finalization outputs unchanged: no line is produced for it and siblings are
unaffected. -/
theorem c9_unparseable_field_skipped (s : String)
    (h1 : ∀ c, s.data.head? = some c → isIdentStart c = false)
    (h2 : ∀ c, (strip s).data.head? = some c → isIdentStart c = false) :
    parse_field s = none ∧
    ∀ (fs1 fs2 : List String) (rw dv : Option String),
      finalizeMid (fs1 ++ s :: fs2) rw dv = finalizeMid (fs1 ++ fs2) rw dv ∧
      finalizeEnd (fs1 ++ s :: fs2) rw dv = finalizeEnd (fs1 ++ fs2) rw dv := by
  have hp : parse_field (strip s) = none := parse_field_none_of_head h2
  have hdecl : declFor s = [] := by unfold declFor; rw [hp]
  refine ⟨parse_field_none_of_head h1, fun fs1 fs2 rw dv => ⟨?_, ?_⟩⟩
  · have hconf : configureFor rw dv s = [] := by unfold configureFor; rw [hp]
    unfold finalizeMid
    simp [List.flatMap_append, List.flatMap_cons, hdecl, hconf]
  · have hend : endFieldFor rw dv s = [] := by unfold endFieldFor; rw [hp]
    unfold finalizeEnd
    simp [List.flatMap_append, List.flatMap_cons, hend]

/-- Claim C1 (code_bug evidence): on the function's own docstring example
`BUFFER_SIZE [15:0]` the parse returns width 1, lsb 0, msb 15 — not the
claimed width `15 - 0 + 1 = 16` — because `msb and lsb` is falsy for
`lsb = 0` and the "no range given" default of 1 kicks in. -/
theorem c1_range_with_lsb_zero_yields_size_one :
    parse_field "BUFFER_SIZE [15:0]" = some ("BUFFER_SIZE", 1, 0, 15) ∧
    (1 : Int) ≠ 15 - 0 + 1 := by
  constructor
  · rfl
  · decide

/-- Claim C2 (code_bug evidence): in a table whose register `A` (header
access `RO`, default `5`, one field `F [3:1]`) is followed by a register `B`
row (access `RW`, no default), the emitted configure call for `A`'s field
uses access `"RW"` and reset `0` — the values of `B`'s header row, the row
that triggers finalization — and `A`'s own `"RO"`/`5` appear nowhere. -/
theorem c2_access_and_reset_from_finalizing_row :
    "                           .access(\"RW\"),\n" ∈
      excel_to_uvm_ral
        [ ⟨"A", none, some "RO", "F [3:1]", some "5", none, none⟩,
          ⟨"B", none, some "RW", "", none, none, none⟩ ] ∧
    "                           .access(\"RO\"),\n" ∉
      excel_to_uvm_ral
        [ ⟨"A", none, some "RO", "F [3:1]", some "5", none, none⟩,
          ⟨"B", none, some "RW", "", none, none, none⟩ ] ∧
    "                           .reset(0),\n" ∈
      excel_to_uvm_ral
        [ ⟨"A", none, some "RO", "F [3:1]", some "5", none, none⟩,
          ⟨"B", none, some "RW", "", none, none, none⟩ ] ∧
    "                           .reset(5),\n" ∉
      excel_to_uvm_ral
        [ ⟨"A", none, some "RO", "F [3:1]", some "5", none, none⟩,
          ⟨"B", none, some "RW", "", none, none, none⟩ ] := by
  refine ⟨by decide, by decide, by decide, by decide⟩

/-- Claim C3 (code_bug evidence): the end-of-table finalization is a
different emission shape from the mid-stream one.  For the same field list
and header values the mid-stream block contains the `function void build;`
opener while the end-of-table block does not (its per-field output is
interleaved), and a single-register table (whose only register is emitted by
the end-of-table path) contains no `function void build;` line at all. -/
theorem c3_end_of_table_path_differs_from_midstream :
    finalizeEnd ["F [3:1]"] (some "RW") (some "5") ≠
      finalizeMid ["F [3:1]"] (some "RW") (some "5") ∧
    "  function void build;\n" ∈ finalizeMid ["F [3:1]"] (some "RW") (some "5") ∧
    "  function void build;\n" ∉ finalizeEnd ["F [3:1]"] (some "RW") (some "5") ∧
    "  function void build;\n" ∉
      excel_to_uvm_ral [⟨"A", none, some "RW", "F [3:1]", some "5", none, none⟩] := by
  refine ⟨by decide, by decide, by decide, by decide⟩

/-- Claim C4 (code_bug evidence): a row with an empty register-name cell
still contributes an (empty-string) entry to the container's deduplicated
name list — `dropna()` is a no-op after `fillna("")` — so the container
declares a nonsense instance `rand  reg_;` for it. -/
theorem c4_container_instantiates_empty_register_name :
    uniqueNames
      [ ⟨"A", none, none, "F [3:1]", none, none, none⟩,
        ⟨"", none, none, "G [5:4]", none, none, none⟩ ] = ["A", ""] ∧
    "  rand  reg_;\n" ∈
      excel_to_uvm_ral
        [ ⟨"A", none, none, "F [3:1]", none, none, none⟩,
          ⟨"", none, none, "G [5:4]", none, none, none⟩ ] := by
  refine ⟨by decide, by decide⟩

/-- Claim C5 (counterexample): the field text `A [3:5]` parses with a
*negative* computed width `3 - 5 + 1 = -1`, yet the script's truthiness test
accepts it (a nonzero int is truthy), so its declaration and configure
sequence *are* emitted — contradicting "fields whose parsed width is zero or
negative are never emitted". -/
theorem c5_negative_width_field_is_emitted :
    parse_field "A [3:5]" = some ("A", -1, 5, 3) ∧
    (-1 : Int) < 0 ∧
    declFor "A [3:5]" = ["    rand uvm_reg_field A;\n"] ∧
    configureFor none none "A [3:5]" ≠ [] := by
  refine ⟨by rfl, by decide, by rfl, by decide⟩

/-! ### Shape of the lines a finalization can emit -/

theorem mem_declFor_take4 {f l : String} (h : l ∈ declFor f) :
    l.data.take 4 = spaces4 := by
  unfold declFor at h
  rcases hp : parse_field (strip f) with _ | ⟨n, sz, lsb, msb⟩ <;> rw [hp] at h
  · simp at h
  · dsimp only at h
    by_cases hg : n ≠ "" ∧ sz ≠ 0
    · rw [if_pos hg] at h
      simp only [List.mem_singleton] at h
      subst h
      exact take4_append _ _ (take4_append _ _ (by decide))
    · rw [if_neg hg] at h
      simp at h

theorem mem_configureFor_take4 {rw dv : Option String} {f l : String}
    (h : l ∈ configureFor rw dv f) :
    l.data.take 4 = spaces4 := by
  unfold configureFor at h
  rcases hp : parse_field (strip f) with _ | ⟨n, sz, lsb, msb⟩ <;> rw [hp] at h
  · simp at h
  · dsimp only at h
    by_cases hg : n ≠ "" ∧ sz ≠ 0
    · rw [if_pos hg] at h
      simp only [List.mem_cons, List.not_mem_nil, or_false] at h
      rcases h with rfl | rfl | rfl | rfl | rfl | rfl | rfl | rfl | rfl | rfl | rfl
      · exact take4_append _ _ (take4_append _ _ (take4_append _ _
          (take4_append _ _ (by decide))))
      · exact take4_append _ _ (take4_append _ _ (by decide))
      · exact take4_append _ _ (take4_append _ _ (by decide))
      · exact take4_append _ _ (take4_append _ _ (by decide))
      · exact take4_append _ _ (take4_append _ _ (by decide))
      · exact take4_append _ _ (take4_append _ _ (by decide))
      · decide
      · exact take4_append _ _ (take4_append _ _ (by decide))
      · decide
      · decide
      · decide
    · rw [if_neg hg] at h
      simp at h

theorem mem_finalizeMid_shape {fields : List String} {rw dv : Option String}
    {l : String} (h : l ∈ finalizeMid fields rw dv) :
    l.data.take 4 = spaces4 ∨
    l ∈ (["  //---------------------------------------\n", "  function void build;\n",
          "  endfunction\n", "endclass\n\n"] : List String) := by
  unfold finalizeMid at h
  rcases List.mem_append.mp h with h2 | h2
  rotate_left
  · right
    simp only [List.mem_cons, List.not_mem_nil, or_false] at h2 ⊢
    tauto
  rcases List.mem_append.mp h2 with h3 | h3
  rotate_left
  · obtain ⟨f2, -, hf⟩ := List.mem_flatMap.mp h3
    exact Or.inl (mem_configureFor_take4 hf)
  rcases List.mem_append.mp h3 with h4 | h4
  rotate_left
  · right
    simp only [List.mem_cons, List.not_mem_nil, or_false] at h4 ⊢
    tauto
  rcases List.mem_append.mp h4 with h5 | h5
  rotate_left
  · obtain ⟨f2, -, hf⟩ := List.mem_flatMap.mp h5
    exact Or.inl (mem_declFor_take4 hf)
  · right
    simp only [List.mem_cons, List.not_mem_nil, or_false] at h5 ⊢
    tauto

theorem mem_finalizeEnd_shape {fields : List String} {rw dv : Option String}
    {l : String} (h : l ∈ finalizeEnd fields rw dv) :
    l.data.take 4 = spaces4 ∨
    l ∈ (["  //---------------------------------------\n",
          "  endfunction\n", "endclass\n\n"] : List String) := by
  unfold finalizeEnd at h
  rcases List.mem_append.mp h with h2 | h2
  rotate_left
  · right
    simp only [List.mem_cons, List.not_mem_nil, or_false] at h2 ⊢
    tauto
  rcases List.mem_append.mp h2 with h3 | h3
  rotate_left
  · obtain ⟨f2, -, hf⟩ := List.mem_flatMap.mp h3
    rw [endFieldFor_eq] at hf
    rcases List.mem_append.mp hf with hf | hf
    · exact Or.inl (mem_declFor_take4 hf)
    · exact Or.inl (mem_configureFor_take4 hf)
  · right
    simp only [List.mem_cons, List.not_mem_nil, or_false] at h3 ⊢
    tauto

theorem count_finalizeMid_zero (t : String) (F : List String) (rw dv : Option String)
    (h4 : t.data.take 4 ≠ spaces4)
    (hfix : t ∉ (["  //---------------------------------------\n",
      "  function void build;\n", "  endfunction\n", "endclass\n\n"] : List String)) :
    (finalizeMid F rw dv).count t = 0 :=
  List.count_eq_zero.mpr fun hm => by
    rcases mem_finalizeMid_shape hm with h | h
    · exact h4 h
    · exact hfix h

theorem count_finalizeEnd_zero (t : String) (F : List String) (rw dv : Option String)
    (h4 : t.data.take 4 ≠ spaces4)
    (hfix : t ∉ (["  //---------------------------------------\n",
      "  endfunction\n", "endclass\n\n"] : List String)) :
    (finalizeEnd F rw dv).count t = 0 :=
  List.count_eq_zero.mpr fun hm => by
    rcases mem_finalizeEnd_shape hm with h | h
    · exact h4 h
    · exact hfix h

/-! ### The two cases of one loop iteration -/

theorem stepRow_start (st : GenState) (row : Row)
    (h : strip row.register_name ≠ "") :
    stepRow st row =
      { current_reg := some (strip row.register_name)
        fields := if row.fields ≠ "" then [strip row.fields] else []
        rw := row.read_write
        dv := row.default_value
        out := st.out
          ++ (if st.current_reg.isSome then
                finalizeMid st.fields row.read_write row.default_value else [])
          ++ openReg (strip row.register_name) } := by
  simp only [stepRow]
  rw [if_pos h]
  by_cases hf : row.fields ≠ ""
  · rw [if_pos hf, if_pos hf]
    rfl
  · rw [if_neg hf, if_neg hf]

theorem stepRow_cont (st : GenState) (row : Row)
    (h : strip row.register_name = "") :
    stepRow st row =
      { st with
          fields := if row.fields ≠ "" then st.fields ++ [strip row.fields]
                    else st.fields
          rw := row.read_write
          dv := row.default_value } := by
  simp only [stepRow]
  by_cases hf : row.fields ≠ ""
  · rw [if_pos hf, if_pos hf,
      if_neg (show ¬(strip row.register_name ≠ "") by simp [h])]
  · rw [if_neg hf, if_neg hf,
      if_neg (show ¬(strip row.register_name ≠ "") by simp [h])]

/-! ### The container depends only on the register-name column -/

theorem foldl_uniqueStep_congr :
    ∀ (rows1 rows2 : List Row),
      rows1.map Row.register_name = rows2.map Row.register_name →
      ∀ acc, rows1.foldl uniqueStep acc = rows2.foldl uniqueStep acc := by
  intro rows1
  induction rows1 with
  | nil =>
    intro rows2 h acc
    cases rows2 with
    | nil => rfl
    | cons b t2 => simp at h
  | cons a t ih =>
    intro rows2 h acc
    cases rows2 with
    | nil => simp at h
    | cons b t2 =>
      simp only [List.map_cons, List.cons.injEq] at h
      simp only [List.foldl_cons]
      rw [show uniqueStep acc a = uniqueStep acc b from by
        unfold uniqueStep; rw [h.1]]
      exact ih t2 h.2 _

theorem uniqueNames_eq_of_names_eq (rows1 rows2 : List Row)
    (h : rows1.map Row.register_name = rows2.map Row.register_name) :
    uniqueNames rows1 = uniqueNames rows2 :=
  foldl_uniqueStep_congr rows1 rows2 h []

/-- Claim C6: in a table whose rows carry the register-name cells `A`, `""`
(a field-continuation row), `B`, `A` — duplicate name `A` — the output has
two register class blocks named `A` and one named `B` (group-level, not
name-level uniqueness), while the container's deduplicated name list keeps
first-seen order with `A` and `B` once each, and the container's
instance/build/map lines mention `A` and `B` exactly once each. -/
theorem c6_duplicate_register_names (r1 r2 r3 r4 : Row)
    (h1 : r1.register_name = "A") (h2 : r2.register_name = "")
    (h3 : r3.register_name = "B") (h4 : r4.register_name = "A") :
    (excel_to_uvm_ral [r1, r2, r3, r4]).count "class A extends uvm_reg;\n" = 2 ∧
    (excel_to_uvm_ral [r1, r2, r3, r4]).count "class B extends uvm_reg;\n" = 1 ∧
    uniqueNames [r1, r2, r3, r4] = ["A", "", "B"] ∧
    (containerSection [r1, r2, r3, r4]).count "  rand A reg_a;\n" = 1 ∧
    (containerSection [r1, r2, r3, r4]).count "  rand B reg_b;\n" = 1 ∧
    (containerSection [r1, r2, r3, r4]).count "    reg_a.build();\n" = 1 ∧
    (containerSection [r1, r2, r3, r4]).count "    reg_b.build();\n" = 1 ∧
    (containerSection [r1, r2, r3, r4]).count
      "    default_map.add_reg(reg_a, \x27h0, \"RW\");\n" = 1 ∧
    (containerSection [r1, r2, r3, r4]).count
      "    default_map.add_reg(reg_b, \x27h0, \"RW\");\n" = 1 := by
  have hu : uniqueNames [r1, r2, r3, r4] = ["A", "", "B"] := by
    unfold uniqueNames
    simp only [List.foldl_cons, List.foldl_nil]
    rw [show uniqueStep [] r1 = ["A"] from by unfold uniqueStep; rw [h1]; decide,
        show uniqueStep ["A"] r2 = ["A", ""] from by
          unfold uniqueStep; rw [h2]; decide,
        show uniqueStep ["A", ""] r3 = ["A", "", "B"] from by
          unfold uniqueStep; rw [h3]; decide,
        show uniqueStep ["A", "", "B"] r4 = ["A", "", "B"] from by
          unfold uniqueStep; rw [h4]; decide]
  have hcont : containerSection [r1, r2, r3, r4] = containerOf ["A", "", "B"] := by
    unfold containerSection
    rw [hu]
  have hsec : ∀ t : String, t.data.take 4 ≠ spaces4 →
      t ∉ (["  //---------------------------------------\n",
        "  function void build;\n", "  endfunction\n",
        "endclass\n\n"] : List String) →
      (registerSection [r1, r2, r3, r4]).count t
        = (openReg "A").count t + (openReg "B").count t + (openReg "A").count t := by
    intro t ht hfix
    unfold registerSection
    simp only [List.foldl_cons, List.foldl_nil]
    rw [stepRow_start _ r1 (by rw [h1]; decide),
        stepRow_cont _ r2 (by rw [h2]; decide),
        stepRow_start _ r3 (by rw [h3]; decide),
        stepRow_start _ r4 (by rw [h4]; decide)]
    unfold finishRun
    dsimp only
    rw [h1, h3, h4,
      (by decide : strip "A" = "A"), (by decide : strip "B" = "B")]
    simp only [Option.isSome_some, Option.isSome_none, if_true,
      Bool.false_eq_true, if_false,
      List.nil_append, List.append_nil, List.append_assoc]
    simp only [List.count_append]
    rw [count_finalizeMid_zero t _ _ _ ht hfix,
        count_finalizeMid_zero t _ _ _ ht hfix,
        count_finalizeEnd_zero t _ _ _ ht
          (fun hm => hfix (by revert hm; intro hm; simp at hm ⊢; tauto))]
    omega
  refine ⟨?_, ?_, hu, by rw [hcont]; decide, by rw [hcont]; decide,
    by rw [hcont]; decide, by rw [hcont]; decide,
    by rw [hcont]; decide, by rw [hcont]; decide⟩
  · unfold excel_to_uvm_ral
    rw [hcont]
    simp only [List.count_append]
    rw [hsec _ (by decide) (by decide)]
    decide
  · unfold excel_to_uvm_ral
    rw [hcont]
    simp only [List.count_append]
    rw [hsec _ (by decide) (by decide)]
    decide

/-- Claim C7: when a required column (such as `Offset`) is missing from the
stripped header, the run is the `error` result: it names the missing column
and no generated output exists — the output file is never opened. -/
theorem c7_missing_required_column (header : List String) (rows : List Row)
    (c : String) (hc : c ∈ required_columns) (hm : c ∉ header.map strip) :
    (∃ missing, runWithHeader header rows = RunResult.error missing ∧
      c ∈ missing) ∧
    ∀ output, runWithHeader header rows ≠ RunResult.ok output := by
  have hcm : c ∈ required_columns.filter
      (fun x => decide (x ∉ header.map strip)) :=
    List.mem_filter.mpr ⟨hc, by simpa using hm⟩
  have hne : required_columns.filter
      (fun x => decide (x ∉ header.map strip)) ≠ [] :=
    List.ne_nil_of_mem hcm
  constructor
  · refine ⟨_, ?_, hcm⟩
    simp only [runWithHeader]
    rw [if_neg hne]
  · intro output hout
    simp only [runWithHeader] at hout
    rw [if_neg hne] at hout
    exact RunResult.noConfusion hout

/-! ### Folding past rows that never open a register -/

theorem finishRun_foldl_congr (rows : List Row) :
    ∀ (s1 s2 : GenState), s1.current_reg = none → s2.current_reg = none →
      s1.out = s2.out → s1.rw = s2.rw → s1.dv = s2.dv →
      finishRun (rows.foldl stepRow s1) = finishRun (rows.foldl stepRow s2) := by
  induction rows with
  | nil =>
    intro s1 s2 h1 h2 h3 h4 h5
    simp only [List.foldl_nil]
    unfold finishRun
    rw [h1, h2, h3]
    rfl
  | cons r rs ih =>
    intro s1 s2 h1 h2 h3 h4 h5
    simp only [List.foldl_cons]
    by_cases hr : strip r.register_name = ""
    · rw [stepRow_cont _ _ hr, stepRow_cont _ _ hr]
      refine ih _ _ ?_ ?_ ?_ ?_ ?_ <;> simp [h1, h2, h3]
    · rw [stepRow_start _ _ hr, stepRow_start _ _ hr, h1, h2, h3]
      rfl

theorem preFold (pre : List (Row × String)) :
    ∀ (s1 s2 : GenState),
      (∀ p ∈ pre, strip (Prod.fst p).register_name = "") →
      s1.current_reg = none → s2.current_reg = none → s1.out = s2.out →
      s1.rw = s2.rw → s1.dv = s2.dv →
      ((pre.map Prod.fst).foldl stepRow s1).current_reg = none ∧
      ((pre.map fun p => { p.1 with fields := p.2 }).foldl stepRow s2).current_reg
        = none ∧
      ((pre.map Prod.fst).foldl stepRow s1).out
        = ((pre.map fun p => { p.1 with fields := p.2 }).foldl stepRow s2).out ∧
      ((pre.map Prod.fst).foldl stepRow s1).rw
        = ((pre.map fun p => { p.1 with fields := p.2 }).foldl stepRow s2).rw ∧
      ((pre.map Prod.fst).foldl stepRow s1).dv
        = ((pre.map fun p => { p.1 with fields := p.2 }).foldl stepRow s2).dv := by
  induction pre with
  | nil =>
    intro s1 s2 hpre h1 h2 h3 h4 h5
    exact ⟨h1, h2, h3, h4, h5⟩
  | cons p ps ih =>
    intro s1 s2 hpre h1 h2 h3 h4 h5
    simp only [List.map_cons, List.foldl_cons]
    have hname : strip p.1.register_name = "" := hpre p (by simp)
    have hname2 : strip ({ p.1 with fields := p.2 } : Row).register_name = "" :=
      hname
    rw [stepRow_cont _ _ hname, stepRow_cont _ _ hname2]
    refine ih _ _ (fun q hq => hpre q (List.mem_cons_of_mem _ hq))
      ?_ ?_ ?_ ?_ ?_ <;> simp [h1, h2, h3]

/-- Claim C8: two tables that differ only in the `Fields` cells of rows
lying before the first register-start row (rows whose stripped register
name is empty) generate identical output: those field entries leave no
trace anywhere in the artifact.  The second table is built from the first
by replacing each such row's `fields` cell with an arbitrary other string. -/
theorem c8_prefix_fields_do_not_affect_output
    (pre : List (Row × String)) (rest : List Row)
    (h : ∀ p ∈ pre, strip (Prod.fst p).register_name = "") :
    excel_to_uvm_ral (pre.map Prod.fst ++ rest)
      = excel_to_uvm_ral (pre.map (fun p : Row × String => { p.1 with fields := p.2 }) ++ rest) := by
  have hnames : (pre.map Prod.fst ++ rest).map Row.register_name
      = (pre.map (fun p : Row × String => { p.1 with fields := p.2 }) ++ rest).map
          Row.register_name := by
    simp only [List.map_append, List.map_map]
    rfl
  have hcont : containerSection (pre.map Prod.fst ++ rest)
      = containerSection (pre.map (fun p : Row × String => { p.1 with fields := p.2 }) ++ rest) := by
    unfold containerSection
    rw [uniqueNames_eq_of_names_eq _ _ hnames]
  have hreg : registerSection (pre.map Prod.fst ++ rest)
      = registerSection (pre.map (fun p : Row × String => { p.1 with fields := p.2 }) ++ rest) := by
    unfold registerSection
    rw [List.foldl_append, List.foldl_append]
    have hp := preFold pre ⟨none, [], none, none, []⟩ ⟨none, [], none, none, []⟩
      h rfl rfl rfl rfl rfl
    exact finishRun_foldl_congr rest _ _ hp.1 hp.2.1 hp.2.2.1 hp.2.2.2.1 hp.2.2.2.2
  unfold excel_to_uvm_ral
  rw [hcont, hreg]

/-! ### Witnesses -/

/-- Witness for C6: the theorem applied to the concrete four-row table. -/
theorem c6_witness :
    (excel_to_uvm_ral [c6r1, c6r2, c6r3, c6r4]).count "class A extends uvm_reg;\n"
      = 2 ∧
    (excel_to_uvm_ral [c6r1, c6r2, c6r3, c6r4]).count "class B extends uvm_reg;\n"
      = 1 ∧
    uniqueNames [c6r1, c6r2, c6r3, c6r4] = ["A", "", "B"] ∧
    (containerSection [c6r1, c6r2, c6r3, c6r4]).count "  rand A reg_a;\n" = 1 ∧
    (containerSection [c6r1, c6r2, c6r3, c6r4]).count "  rand B reg_b;\n" = 1 ∧
    (containerSection [c6r1, c6r2, c6r3, c6r4]).count "    reg_a.build();\n" = 1 ∧
    (containerSection [c6r1, c6r2, c6r3, c6r4]).count "    reg_b.build();\n" = 1 ∧
    (containerSection [c6r1, c6r2, c6r3, c6r4]).count
      "    default_map.add_reg(reg_a, \x27h0, \"RW\");\n" = 1 ∧
    (containerSection [c6r1, c6r2, c6r3, c6r4]).count
      "    default_map.add_reg(reg_b, \x27h0, \"RW\");\n" = 1 :=
  c6_duplicate_register_names c6r1 c6r2 c6r3 c6r4 rfl rfl rfl rfl

/-- Witness for C7: a header that lacks exactly the `Offset` column. -/
theorem c7_witness :
    ∃ missing,
      runWithHeader
        ["Register Name", "Read/Write", "Fields", "Default value",
         "Reset value", "Description"] [] = RunResult.error missing ∧
      "Offset" ∈ missing :=
  (c7_missing_required_column
    ["Register Name", "Read/Write", "Fields", "Default value",
     "Reset value", "Description"] [] "Offset" (by decide) (by decide)).1

/-- Witness for C8: the two concrete tables differing only in the field
cells of their two leading no-register rows generate the same text. -/
theorem c8_witness :
    excel_to_uvm_ral (c8pre.map Prod.fst ++ c8rest)
      = excel_to_uvm_ral
          (c8pre.map (fun p : Row × String => { p.1 with fields := p.2 }) ++ c8rest) :=
  c8_prefix_fields_do_not_affect_output c8pre c8rest (by decide)

/-- Witness for C9 at the leading-digit string `3ab`. -/
theorem c9_witness :
    parse_field "3ab" = none ∧
    finalizeMid (["F [3:1]"] ++ "3ab" :: []) (some "RW") (some "1")
      = finalizeMid (["F [3:1]"] ++ []) (some "RW") (some "1") := by
  have h := c9_unparseable_field_skipped "3ab"
    (by intro c hc; cases Option.some.inj (show some '3' = some c from hc); decide)
    (by intro c hc; cases Option.some.inj (show some '3' = some c from hc); decide)
  exact ⟨h.1, (h.2 ["F [3:1]"] [] (some "RW") (some "1")).1⟩

end UvmRal
